import Mathlib

/-!
Verification of the task-scheduling / idle-detection core of the
seung-lab browser-utility collection (ConveyorBelt.js, Thinking.js,
Conditional.js), via a shallow embedding of the JavaScript source.

Queues are modelled with the most recently pushed element at the END of
the list (JS `push` appends, `pop` removes the last element).  Timer
primitives (`setInterval` / `clearInterval` / `setTimeout` /
`clearTimeout`) are modelled by an explicit scheduler state carrying the
set of live handles.
-/

namespace ConveyorBelt

/-- Queued actions.  JS queue slots hold functions; `user n` stands for a
caller-supplied function (functions are opaque, so we tag them) and
`noop` is the `function () {}` that `decimate` writes into marked slots.
Every `Act` is "truthy" in the JS sense; only the transient `null`
written inside `decimate` (modelled as `Option.none` there) is falsy. -/
inductive Act where
  | user (n : Nat)
  | noop
  deriving DecidableEq, Repr

/-- `this.speed`: execution interval in msec, or the string `'immediate'`. -/
inductive Speed where
  | immediate
  | duration (ms : Nat)
  deriving DecidableEq, Repr

/-- The fields of a ConveyorBelt object (ConveyorBelt.js lines 41-53).
`lastCheck` is a ghost history variable, not present in the source: it
records the result of the most recent queue-emptiness check made by the
code (`some true` = the queue was seen non-empty, `some false` = seen
empty, `none` = no check has happened yet).  It is written exactly where
the source inspects the queue while managing the timer and influences
nothing. -/
structure Belt where
  queue : List Act
  speed : Speed
  timerid : Option Nat
  active : Bool
  lastCheck : Option Bool
  deriving DecidableEq, Repr

/-- The host scheduler: a fresh-handle counter and the list of live
interval handles.  Handles start at 1 because browser timer ids are
positive (the source tests them for truthiness, e.g. `if (this.timerid)`). -/
structure Sched where
  nextId : Nat
  live : List Nat
  deriving DecidableEq, Repr

/-- The initial scheduler world. -/
def initSched : Sched := { nextId := 1, live := [] }

/-- `setInterval(...)`: allocates a fresh live handle. -/
def setInterval (w : Sched) : Sched × Nat :=
  ({ nextId := w.nextId + 1, live := w.nextId :: w.live }, w.nextId)

/-- `clearInterval(id)`: removes the handle from the live set
(a no-op on an unknown or null handle, as in JS). -/
def clearInterval (w : Sched) (id : Option Nat) : Sched :=
  match id with
  | some h => { w with live := w.live.erase h }
  | none => w

/-- The `for (var count = limit - 1; count >= 0; count--)` loop of
`burn` (lines 196-199): runs `n` iterations, each popping the last
queue element and executing it.  Returns the remaining queue and the
executed actions in execution order.  The `none` branch is unreachable
in `burn` because `limit <= queue.length` there. -/
def burnLoop : Nat → List Act → List Act × List Act
  | 0, q => (q, [])
  | n + 1, q =>
    match q.getLast? with
    | none => (q, [])
    | some fn =>
      let r := burnLoop n q.dropLast
      (r.1, fn :: r.2)

/-- `burn(amount)` (lines 188-202): executes up to `amount` queued
actions (all of them when `amount === undefined`), popping from the end
of the queue.  (The source's `var restart = this.active;` is dead code.)
Returns the updated belt and the executed actions in order. -/
def burn (b : Belt) (amount : Option Nat) : Belt × List Act :=
  let amt := match amount with
    | none => b.queue.length
    | some a => a
  let limit := min amt b.queue.length
  let r := burnLoop limit b.queue
  ({ b with queue := r.1 }, r.2)

/-- `add(fn)` (lines 65-80): pushes `fn`; if active and immediate,
burns the whole queue; if active with a duration and no timer is
running, starts the interval timer (the ghost `lastCheck` is set to
`some true` there: the code just pushed, so the queue it is arranging a
timer for is known non-empty).  Returns belt, scheduler and the actions
executed during the call. -/
def add (fn : Act) (b : Belt) (w : Sched) : Belt × Sched × List Act :=
  let b := { b with queue := b.queue ++ [fn] }
  if !b.active then (b, w, [])
  else if b.speed = Speed.immediate then
    let r := burn b none
    (r.1, w, r.2)
  else if b.timerid = none then
    let r := setInterval w
    ({ b with timerid := some r.2, lastCheck := some true }, r.1, [])
  else (b, w, [])

/-- `process()` (lines 92-103): on a tick, if the speed is a duration
and the queue is empty, clears the interval timer and returns;
otherwise pops and executes one action.  When the speed is a duration
the code evaluates `this.queue.length === 0`, which updates the ghost
`lastCheck`; with immediate speed the `&&` short-circuits and no check
happens.  Popping an empty queue with immediate speed throws a
TypeError in JS after mutating nothing, so the state is returned
unchanged in that branch. -/
def process (b : Belt) (w : Sched) : Belt × Sched × List Act :=
  if b.speed ≠ Speed.immediate then
    if b.queue.length = 0 then
      ({ b with timerid := none, lastCheck := some false },
       clearInterval w b.timerid, [])
    else
      match b.queue.getLast? with
      | some fn =>
        ({ b with queue := b.queue.dropLast, lastCheck := some true }, w, [fn])
      | none => (b, w, [])
  else
    match b.queue.getLast? with
    | some fn => ({ b with queue := b.queue.dropLast }, w, [fn])
    | none => (b, w, [])

/-- `stop()` (lines 144-153): marks inactive and clears any timer. -/
def stop (b : Belt) (w : Sched) : Belt × Sched :=
  let b := { b with active := false }
  match b.timerid with
  | some id => ({ b with timerid := none }, clearInterval w (some id))
  | none => (b, w)

/-- `start(speed)` (lines 115-132): stops, marks active, optionally
updates the speed, then either burns through immediately or starts the
interval timer.  Note that the timer is created unconditionally,
without examining the queue. -/
def start (sp : Option Speed) (b : Belt) (w : Sched) : Belt × Sched × List Act :=
  let r0 := stop b w
  let b := { r0.1 with active := true }
  let w := r0.2
  let b := match sp with
    | some s => { b with speed := s }
    | none => b
  if b.speed = Speed.immediate then
    let b := { b with timerid := none }
    let r := burn b none
    (r.1, w, r.2)
  else
    let r := setInterval w
    ({ b with timerid := some r.2 }, r.1, [])

/-- `flush(amount)` (lines 166-175): discards queued actions without
executing any (`slice(0, amount)` keeps the first `amount`); with no
argument the queue is emptied.  The empty trace records that nothing is
executed. -/
def flush (amount : Option Nat) (b : Belt) : Belt × List Act :=
  match amount with
  | none => ({ b with queue := [] }, [])
  | some n => ({ b with queue := b.queue.take n }, [])

/-- The constructor `ConveyorBelt.ConveyorBelt(speed)` (lines 41-53):
empty queue, inactive, no timer, then `this.start()`. -/
def mkBelt (sp : Speed) (w : Sched) : Belt × Sched × List Act :=
  let b : Belt :=
    { queue := [], speed := sp, timerid := none, active := false, lastCheck := none }
  start none b w

/-- Modelled from the spec: `Utils.cutoff` is called by `decimate`
(line 226) but Utils.js is not among the repository sources provided;
the spec states "factor clamped to [0,1]" and "Invalid `factor` to
`decimate` is clamped silently to [0,1] rather than rejected", so
`cutoff x lo hi` clamps `x` into `[lo, hi]`. -/
def cutoff (x lo hi : ℚ) : ℚ := min hi (max lo x)

/-- JavaScript `Math.round` on a non-negative number: half-way cases
round up, i.e. `floor (x + 1/2)`. -/
def jround (x : ℚ) : ℤ := Int.floor (x + 1 / 2)

/-- The mutable state of the `while (reduction > 0)` scan inside
`decimate` (lines 229-257).  Queue slots are `Option Act`: `none` is
the transient `null` a marked slot holds, `some a` a live function
(truthy in JS). -/
structure DecState where
  queue : List (Option Act)
  reduction : Nat
  increment : Nat
  i : Nat
  loop : Nat
  deriving DecidableEq, Repr

/-- One iteration of the scan (lines 233-257): step `i` by `increment`
modulo the queue length; `continue` on the protected final slot
(skipping the `loop` counter); otherwise mark a still-live slot `null`
and decrement `reduction`, then bump `loop` and shrink `increment`
(floored at 1) on every full wrap. -/
def decStep (s : DecState) : DecState :=
  let len := s.queue.length
  let i := (s.i + s.increment) % len
  if i = len - 1 then
    { s with i := i }
  else
    let marked := (s.queue.getD i none).isSome
    let queue := if marked then s.queue.set i none else s.queue
    let reduction := if marked then s.reduction - 1 else s.reduction
    let lp := s.loop + 1
    let increment :=
      if lp % len = 0 then (if 1 < s.increment then s.increment - 1 else 1)
      else s.increment
    { queue := queue, reduction := reduction, increment := increment,
      i := i, loop := lp }

/-- The scan loop with explicit fuel: `none` means the loop has not
terminated within `fuel` iterations (the JS loop has no bound; fuel
makes nontermination observable). -/
def decLoop (fuel : Nat) (s : DecState) : Option DecState :=
  if s.reduction = 0 then some s
  else
    match fuel with
    | 0 => none
    | f + 1 => decLoop f (decStep s)

/-- The clean-up pass (lines 260-264) rewrites each `null` slot to the
no-op function. -/
def fixSlot : Option Act → Option Act
  | none => some Act.noop
  | some a => some a

/-- The clean-up loop runs from index `length - 2` down to `0`, never
touching the final slot: it rewrites every non-final `null` to a no-op
and leaves the last element exactly as it is. -/
def cleanup (q : List (Option Act)) : List (Option Act) :=
  q.dropLast.map fixSlot ++ q.drop (q.length - 1)

/-- `decimate(factor)` (lines 221-265): no-op on queues of length ≤ 1;
otherwise clamp the factor, set `reduction = Math.round(len * factor)`
and `increment = Math.floor(len / reduction)`, run the scan, then clean
up.  When `reduction = 0` the JS division yields `Infinity`, but the
loop body never runs, so the (here: `Nat`-division) value is never
used.  The queue is embedded as `Option Act` slots (`some` = live
function); `none` is returned iff the scan fails to terminate within
`fuel` iterations. -/
def decimate (fuel : Nat) (factor : ℚ) (q : List Act) : Option (List (Option Act)) :=
  if q.length ≤ 1 then some (q.map some)
  else
    let f := cutoff factor 0 1
    let reduction := (jround (q.length * f)).toNat
    let increment := q.length / reduction
    (decLoop fuel
        { queue := q.map some, reduction := reduction,
          increment := increment, i := 0, loop := 0 }).map
      (fun s => cleanup s.queue)

/-- A belt together with its scheduler world. -/
structure Sys where
  belt : Belt
  sched : Sched
  deriving DecidableEq, Repr

/-- `new ConveyorBelt(speed)` as a system state. -/
def initS (sp : Speed) : Sys :=
  let r := mkBelt sp initSched
  { belt := r.1, sched := r.2.1 }

/-- `add` acting on a system state (the executed trace is dropped). -/
def addS (fn : Act) (s : Sys) : Sys :=
  let r := add fn s.belt s.sched
  { belt := r.1, sched := r.2.1 }

/-- One `process` tick acting on a system state. -/
def processS (s : Sys) : Sys :=
  let r := process s.belt s.sched
  { belt := r.1, sched := r.2.1 }

/-- `start` acting on a system state. -/
def startS (sp : Option Speed) (s : Sys) : Sys :=
  let r := start sp s.belt s.sched
  { belt := r.1, sched := r.2.1 }

/-- `stop` acting on a system state. -/
def stopS (s : Sys) : Sys :=
  let r := stop s.belt s.sched
  { belt := r.1, sched := r.2 }

/-- `flush` acting on a system state. -/
def flushS (amount : Option Nat) (s : Sys) : Sys :=
  { s with belt := (flush amount s.belt).1 }

/-- `burn` acting on a system state. -/
def burnS (amount : Option Nat) (s : Sys) : Sys :=
  { s with belt := (burn s.belt amount).1 }

/-- The states reachable from a freshly constructed belt by any
interleaving of the public operations. -/
inductive Reach : Sys → Prop where
  | init (sp : Speed) : Reach (initS sp)
  | add (fn : Act) {s : Sys} : Reach s → Reach (addS fn s)
  | process {s : Sys} : Reach s → Reach (processS s)
  | start (sp : Option Speed) {s : Sys} : Reach s → Reach (startS sp s)
  | stop {s : Sys} : Reach s → Reach (stopS s)
  | flush (amount : Option Nat) {s : Sys} : Reach s → Reach (flushS amount s)
  | burn (amount : Option Nat) {s : Sys} : Reach s → Reach (burnS amount s)

/-- The scenario `new ConveyorBelt('immediate'); add(f1); add(f2)`,
returning the final system state and the concatenated trace of all
actions executed during the three calls, in execution order. -/
def immediateScenario : Sys × List Act :=
  let r0 := mkBelt Speed.immediate initSched
  let r1 := add (Act.user 1) r0.1 r0.2.1
  let r2 := add (Act.user 2) r1.1 r1.2.1
  ({ belt := r2.1, sched := r2.2.1 }, r0.2.2 ++ r1.2.2 ++ r2.2.2)

/-- A run exercising the timer bookkeeping of a duration-speed belt:
construct, tick on the empty queue (timer cleared after an
observed-empty check), add one action (timer re-created), tick twice
(action runs, then the empty check clears the timer), then `start()`
(which re-creates the timer without looking at the queue). -/
def checkTrace : Sys :=
  startS none
    (processS (processS (addS (Act.user 1) (processS (initS (Speed.duration 50))))))

/-- The timer-ownership invariant of a belt system: the live interval
handles are exactly the one stored in `timerid`, and a stored handle
implies the belt is active with a duration speed. -/
def timerInv (s : Sys) : Prop :=
  s.sched.live = s.belt.timerid.toList ∧
  (s.belt.timerid ≠ none → s.belt.active = true ∧ s.belt.speed ≠ Speed.immediate)

/-- Slot-wise invariant of the `decimate` scan relative to the original
queue `q0`: same length, and every slot either still holds its original
action or has been marked `null` — the final slot never being marked. -/
def DecInv (q0 : List Act) (qq : List (Option Act)) : Prop :=
  qq.length = q0.length ∧
  ∀ j, j < q0.length →
    (qq[j]? = some q0[j]? ∨ (j ≠ q0.length - 1 ∧ qq[j]? = some none))

end ConveyorBelt

namespace Thinking

/-- The value of `selector.data('thinking')`: absent, `'active'`, or
`'idle'`. -/
inductive TData where
  | active
  | idle
  deriving DecidableEq, Repr

/-- The state of one subject under Thinking.js together with the host's
timeout scheduler.  `pending` holds the scheduled-but-unfired timeouts
as `(id, fireTime)` pairs; `outstanding` mirrors the
`data('thinking.outstanding')` id list; `timerid` is the closure
variable of `startThinking`; `fired` is the ghost log of times at which
`trigger('thinking')` ran; `maxPending` is a ghost high-water mark of
`pending.length`.  Timeout ids start at 1 (JS ids are positive and the
source tests them for truthiness: `if (id)`). -/
structure IdleSim where
  pending : List (Nat × Nat)
  outstanding : List Nat
  timerid : Option Nat
  thinking : Option TData
  lastreset : Option Nat
  nextId : Nat
  fired : List Nat
  maxPending : Nat
  deriving DecidableEq, Repr

/-- The state right after `startThinking` (part_002 lines 196-234):
the function only installs the activity-event handlers; it writes none
of the `data` fields, schedules nothing, and leaves `timerid`
uninitialised. -/
def startThinkingState : IdleSim :=
  { pending := [], outstanding := [], timerid := none, thinking := none,
    lastreset := none, nextId := 1, fired := [], maxPending := 0 }

/-- A qualifying activity event at time `t` runs the bound handler
`timerid = resetTimeout(timerid, settings)` (lines 214-226, 230-232):
clear the previous timeout (if the closure variable holds one) and drop
it from the outstanding list, set `data('thinking') = 'active'` and
`lastreset = now`, then `timeout(settings)` schedules a fresh timeout
at `t + idleMs` and records its id. -/
def activityEvent (idleMs : Nat) (t : Nat) (s : IdleSim) : IdleSim :=
  let s :=
    match s.timerid with
    | some id =>
      { s with pending := s.pending.filter (fun p => p.1 ≠ id),
               outstanding := s.outstanding.filter (fun oid => oid ≠ id) }
    | none => s
  let s := { s with thinking := some TData.active, lastreset := some t }
  let id := s.nextId
  let pending := s.pending ++ [(id, t + idleMs)]
  { s with pending := pending, outstanding := s.outstanding ++ [id],
           nextId := id + 1, timerid := some id,
           maxPending := max s.maxPending pending.length }

/-- The host clock reaching time `t`: every still-pending timeout due
at `t` fires (lines 202-205): it sets `data('thinking') = 'idle'` and
triggers the `'thinking'` notification, recorded in the `fired` log at
its deadline.  Fired ids are not removed from the outstanding list
(the source never prunes them there). -/
def fireAt (t : Nat) (s : IdleSim) : IdleSim :=
  let due := s.pending.filter (fun p => p.2 = t)
  let rest := s.pending.filter (fun p => ¬(p.2 = t))
  if due.isEmpty then s
  else
    { s with pending := rest, thinking := some TData.idle,
             fired := s.fired ++ due.map (fun p => p.2) }

/-- The earliest deadline among the pending timeouts. -/
def minDeadline (s : IdleSim) : Option Nat :=
  (s.pending.map (fun p => p.2)).min?

/-- Advance the host event loop up to time `bound`: repeatedly fire
the earliest pending timeout whose deadline is at most `bound`, in
deadline order.  `fuel = s.pending.length` iterations suffice since
firing schedules nothing new. -/
def fireDue (bound : Nat) : Nat → IdleSim → IdleSim
  | 0, s => s
  | fuel + 1, s =>
    match minDeadline s with
    | none => s
    | some d => if d ≤ bound then fireDue bound fuel (fireAt d s) else s

/-- Event-driven run: deliver the qualifying activity events at the
given (increasing) times, letting any timeout due by then fire first.
(A timeout due exactly at an activity time would fire first here; no
such tie occurs in the verified scenario.) -/
def runActs (idleMs : Nat) : List Nat → IdleSim → IdleSim
  | [], s => s
  | t :: rest, s =>
    runActs idleMs rest (activityEvent idleMs t (fireDue t s.pending.length s))

/-- Run the world from `startThinkingState`: deliver the activity
events, then let the clock run on to time `T`. -/
def runSim (idleMs : Nat) (acts : List Nat) (T : Nat) : IdleSim :=
  let s := runActs idleMs acts startThinkingState
  fireDue T s.pending.length s

/-- `thinking('running')` (part_002 line 171):
`selector.data('thinking') === 'active'`. -/
def running (s : IdleSim) : Bool :=
  s.thinking = some TData.active

/-- `thinking('elapsed')` (lines 173-179): `now - lastreset` when the
state is `'active'`, otherwise `undefined`.  (When active, `lastreset`
is always present, since `resetTimeout` sets both together; the `none`
fallback in that branch is unreachable.) -/
def elapsed (now : Nat) (s : IdleSim) : Option Nat :=
  if s.thinking = some TData.active then
    match s.lastreset with
    | some r => some (now - r)
    | none => none
  else none

end Thinking

namespace Conditional

/-- `Conditional.or` (Conditional.js lines 206-209): collects the
values of the conditions map and reduces them with `(a, b) => a || b`
starting from the initial accumulator `true`.  The condition values are
modelled as the list of booleans of the map. -/
def or (conds : List Bool) : Bool :=
  conds.foldl (fun a b => a || b) true

end Conditional

/-! ## Theorems -/

/-- Folding `||` from a `true` accumulator stays `true`. -/
theorem foldl_bor_true (l : List Bool) :
    l.foldl (fun a b => a || b) true = true := by
  induction l with
  | nil => rfl
  | cons b l ih => simpa using ih

/-- Claim C10: `Conditional.or` returns `true` for every conditions
map — including the empty map and maps in which every condition is
false — because the disjunction fold starts from an initial accumulator
of `true`; it never returns `false`. -/
theorem Conditional.or_always_true (conds : List Bool) :
    Conditional.or conds = true :=
  foldl_bor_true conds

/-- Claim C2 counterexample: on a fresh `'immediate'` belt,
`add(f1); add(f2)` executes `f1` first — not `f2` — because each `add`
burns the queue down synchronously before the next `add` runs, so the
execution order is `[f1, f2]`, not the claimed `[f2, f1]`. -/
theorem ConveyorBelt.immediate_add_order_counterexample :
    ConveyorBelt.immediateScenario.2 =
      [ConveyorBelt.Act.user 1, ConveyorBelt.Act.user 2] ∧
    ConveyorBelt.immediateScenario.2 ≠
      [ConveyorBelt.Act.user 2, ConveyorBelt.Act.user 1] := by
  decide

/-- Claim C2 (amended): on a queue created active with speed
`'immediate'`, `add(f1)` then `add(f2)` executes both actions
synchronously and neither remains queued afterward, but each action is
executed inside its own `add` call, so `f1` runs before `f2`. -/
theorem ConveyorBelt.immediate_add_executes_within_each_add :
    ConveyorBelt.immediateScenario.2 =
      [ConveyorBelt.Act.user 1, ConveyorBelt.Act.user 2] ∧
    ConveyorBelt.immediateScenario.1.belt.queue = [] := by
  decide

/-- Claim C4: with `idleDelayMs = 200` and qualifying activity events
at t = 0, 100, 250, exactly one idle notification fires, at t = 450
(in particular none at t = 300); at most one idle-fire timeout is ever
scheduled at a time, and nothing remains pending afterwards, so no
stale timer can ever fire. -/
theorem Thinking.idle_fires_once_at_450 :
    (Thinking.runSim 200 [0, 100, 250] 500).fired = [450] ∧
    (Thinking.runSim 200 [0, 100, 250] 500).maxPending ≤ 1 ∧
    (Thinking.runSim 200 [0, 100, 250] 500).pending = [] := by
  decide

/-- Semantics of the `burn` pop-execute loop: running `n ≤ len`
iterations leaves the first `len - n` elements queued and executes the
dropped suffix in reverse (most recently pushed first). -/
theorem ConveyorBelt.burnLoop_spec :
    ∀ (n : Nat) (q : List ConveyorBelt.Act), n ≤ q.length →
      ConveyorBelt.burnLoop n q =
        (q.take (q.length - n), (q.drop (q.length - n)).reverse) := by
  intro n
  induction n with
  | zero =>
    intro q _
    simp [ConveyorBelt.burnLoop]
  | succ m ih =>
    intro q hn
    have hne : q ≠ [] := by
      intro h
      rw [h] at hn
      simp at hn
    have hlast : q.getLast? = some (q.getLast hne) := List.getLast?_eq_getLast q hne
    have hlen : q.dropLast.length = q.length - 1 := List.length_dropLast q
    have hm : m ≤ q.dropLast.length := by omega
    have hrec := ih q.dropLast hm
    rw [ConveyorBelt.burnLoop, hlast, hrec]
    have hq : q.dropLast ++ [q.getLast hne] = q := List.dropLast_append_getLast hne
    have hidx : q.length - (m + 1) = q.length - 1 - m := by omega
    dsimp only
    rw [Prod.mk.injEq]
    constructor
    · rw [hidx, hlen]
      rw [List.dropLast_eq_take]
      rw [List.take_take]
      congr 1
      omega
    · rw [hidx, hlen]
      have h1 : q.length - 1 - m ≤ q.dropLast.length := by omega
      have hd : q.drop (q.length - 1 - m) =
          q.dropLast.drop (q.length - 1 - m) ++ [q.getLast hne] := by
        calc q.drop (q.length - 1 - m)
            = (q.dropLast ++ [q.getLast hne]).drop (q.length - 1 - m) := by rw [hq]
          _ = q.dropLast.drop (q.length - 1 - m) ++ [q.getLast hne] :=
              List.drop_append_of_le_length h1
      rw [hd]
      simp

/-- Claim C7: `burn(n)` executes exactly `min n len` actions
synchronously in LIFO order — the executed list is the reversed suffix
of the queue, most recently added first — removing each executed action
(the prefix `take (len - min n len)` remains, all other fields
unchanged); `burn()` with no argument executes the whole queue. -/
theorem ConveyorBelt.burn_executes_lifo (b : ConveyorBelt.Belt) (n : Nat) :
    ((ConveyorBelt.burn b (some n)).2 =
        (b.queue.drop (b.queue.length - min n b.queue.length)).reverse ∧
      (ConveyorBelt.burn b (some n)).2.length = min n b.queue.length ∧
      (ConveyorBelt.burn b (some n)).1 =
        { b with queue := b.queue.take (b.queue.length - min n b.queue.length) }) ∧
    ((ConveyorBelt.burn b none).2 = b.queue.reverse ∧
      (ConveyorBelt.burn b none).1 = { b with queue := [] }) := by
  have h1 := ConveyorBelt.burnLoop_spec (min n b.queue.length) b.queue
    (min_le_right _ _)
  have h2 := ConveyorBelt.burnLoop_spec b.queue.length b.queue le_rfl
  have hmin : min n b.queue.length ≤ b.queue.length := min_le_right _ _
  refine ⟨⟨?_, ?_, ?_⟩, ?_, ?_⟩
  · simp only [ConveyorBelt.burn, h1]
  · simp only [ConveyorBelt.burn, h1]
    simp only [List.length_reverse, List.length_drop]
    omega
  · simp only [ConveyorBelt.burn, h1]
  · simp only [ConveyorBelt.burn, Nat.min_self, h2]
    simp
  · simp only [ConveyorBelt.burn, Nat.min_self, h2]
    simp

/-- Claim C8: `flush()` discards all queued actions executing none;
`flush(n)` retains exactly the first `n` actions in queue order
(`retained ++ discarded = original queue`) and discards the trailing
remainder, executing none; speed, active flag and timer are unchanged. -/
theorem ConveyorBelt.flush_retains_prefix (b : ConveyorBelt.Belt) (n : Nat) :
    ((ConveyorBelt.flush none b).1.queue = [] ∧
      (ConveyorBelt.flush none b).2 = [] ∧
      (ConveyorBelt.flush none b).1.speed = b.speed ∧
      (ConveyorBelt.flush none b).1.active = b.active ∧
      (ConveyorBelt.flush none b).1.timerid = b.timerid) ∧
    ((ConveyorBelt.flush (some n) b).1.queue = b.queue.take n ∧
      (ConveyorBelt.flush (some n) b).1.queue ++ b.queue.drop n = b.queue ∧
      (ConveyorBelt.flush (some n) b).2 = [] ∧
      (ConveyorBelt.flush (some n) b).1.speed = b.speed ∧
      (ConveyorBelt.flush (some n) b).1.active = b.active ∧
      (ConveyorBelt.flush (some n) b).1.timerid = b.timerid) := by
  refine ⟨⟨rfl, rfl, rfl, rfl, rfl⟩, rfl, ?_, rfl, rfl, rfl, rfl⟩
  show b.queue.take n ++ b.queue.drop n = b.queue
  exact List.take_append_drop n b.queue

/-- When every unprotected slot is already marked, one scan iteration
changes neither the queue nor the remaining reduction count: the
stepped index either lands on the protected final slot (`continue`) or
on an already-null slot. -/
theorem ConveyorBelt.decStep_stuck (s : ConveyorBelt.DecState)
    (hlen : 2 ≤ s.queue.length)
    (hall : ∀ j, j < s.queue.length - 1 → s.queue.getD j none = none) :
    (ConveyorBelt.decStep s).queue = s.queue ∧
    (ConveyorBelt.decStep s).reduction = s.reduction := by
  unfold ConveyorBelt.decStep
  by_cases hi : (s.i + s.increment) % s.queue.length = s.queue.length - 1
  · simp [hi]
  · have hlt : (s.i + s.increment) % s.queue.length < s.queue.length :=
      Nat.mod_lt _ (by omega)
    have hlt1 : (s.i + s.increment) % s.queue.length < s.queue.length - 1 := by omega
    have hnone : (s.queue[(s.i + s.increment) % s.queue.length]?).getD none = none := by
      rw [← List.getD_eq_getElem?_getD]
      exact hall _ hlt1
    simp [hi, hnone]

/-- A scan state whose unprotected slots are all marked but whose
reduction count is still positive never terminates, whatever the fuel. -/
theorem ConveyorBelt.decLoop_stuck :
    ∀ (fuel : Nat) (s : ConveyorBelt.DecState), 2 ≤ s.queue.length →
      (∀ j, j < s.queue.length - 1 → s.queue.getD j none = none) →
      s.reduction ≠ 0 → ConveyorBelt.decLoop fuel s = none := by
  intro fuel
  induction fuel with
  | zero =>
    intro s _ _ h3
    simp [ConveyorBelt.decLoop, h3]
  | succ f ih =>
    intro s h1 h2 h3
    rw [ConveyorBelt.decLoop, if_neg h3]
    have hs := ConveyorBelt.decStep_stuck s h1 h2
    apply ih
    · rw [hs.1]; exact h1
    · rw [hs.1]; exact h2
    · rw [hs.2]; exact h3

/-- Peeling one scan iteration off a divergence proof. -/
theorem ConveyorBelt.decLoop_none_step (s : ConveyorBelt.DecState)
    (h : s.reduction ≠ 0)
    (h2 : ∀ f, ConveyorBelt.decLoop f (ConveyorBelt.decStep s) = none) :
    ∀ f, ConveyorBelt.decLoop f s = none := by
  intro f
  cases f with
  | zero => simp [ConveyorBelt.decLoop, h]
  | succ f => rw [ConveyorBelt.decLoop, if_neg h]; exact h2 f

/-- Claim C1 (code bug): the fixed-stride scan of `decimate` does NOT
terminate for every `k = round(len * factor)`: with `k = len` (here a
2-element queue and factor 1) the loop can never reach zero remaining
reductions — only `len - 1` unprotected slots exist, so after marking
all of them `reduction` stays at 1 and the loop spins forever. -/
theorem ConveyorBelt.decimate_factor_one_diverges :
    ∀ fuel, ConveyorBelt.decimate fuel 1
      [ConveyorBelt.Act.user 0, ConveyorBelt.Act.user 1] = none := by
  intro fuel
  have hstuck : ∀ f, ConveyorBelt.decLoop f
      { queue := [none, some (ConveyorBelt.Act.user 1)], reduction := 1,
        increment := 1, i := 0, loop := 1 } = none := by
    intro f
    apply ConveyorBelt.decLoop_stuck
    · decide
    · intro j hj
      have hj0 : j = 0 := by simpa using hj
      subst hj0
      rfl
    · decide
  have h1 : ∀ f, ConveyorBelt.decLoop f
      { queue := [some (ConveyorBelt.Act.user 0), some (ConveyorBelt.Act.user 1)],
        reduction := 2, increment := 1, i := 1, loop := 0 } = none := by
    apply ConveyorBelt.decLoop_none_step
    · decide
    · have e : ConveyorBelt.decStep
        { queue := [some (ConveyorBelt.Act.user 0), some (ConveyorBelt.Act.user 1)],
          reduction := 2, increment := 1, i := 1, loop := 0 } =
        { queue := [none, some (ConveyorBelt.Act.user 1)], reduction := 1,
          increment := 1, i := 0, loop := 1 } := by decide
      rw [e]; exact hstuck
  have h0 : ∀ f, ConveyorBelt.decLoop f
      { queue := [some (ConveyorBelt.Act.user 0), some (ConveyorBelt.Act.user 1)],
        reduction := 2, increment := 1, i := 0, loop := 0 } = none := by
    apply ConveyorBelt.decLoop_none_step
    · decide
    · have e : ConveyorBelt.decStep
        { queue := [some (ConveyorBelt.Act.user 0), some (ConveyorBelt.Act.user 1)],
          reduction := 2, increment := 1, i := 0, loop := 0 } =
        { queue := [some (ConveyorBelt.Act.user 0), some (ConveyorBelt.Act.user 1)],
          reduction := 2, increment := 1, i := 1, loop := 0 } := by decide
      rw [e]; exact h1
  unfold ConveyorBelt.decimate
  norm_num [ConveyorBelt.cutoff, ConveyorBelt.jround]
  rw [show Int.toNat 2 = 2 from rfl]
  norm_num
  rw [h0 fuel]

/-- The clean-up pass leaves a queue of live slots unchanged. -/
theorem ConveyorBelt.cleanup_map_some (q : List ConveyorBelt.Act) :
    ConveyorBelt.cleanup (q.map some) = q.map some := by
  unfold ConveyorBelt.cleanup
  rw [List.dropLast_eq_take]
  have h1 : ((q.map some).take ((q.map some).length - 1)).map ConveyorBelt.fixSlot =
      (q.map some).take ((q.map some).length - 1) := by
    rw [← List.map_take, List.map_map]
    congr 1
  rw [h1, List.take_append_drop]

/-- `decimate(0)` is a no-op on every queue: the rounded reduction
count is zero, the scan exits at once, and the clean-up pass finds no
marked slot. -/
theorem ConveyorBelt.decimate_zero (fuel : Nat) (q : List ConveyorBelt.Act) :
    ConveyorBelt.decimate fuel 0 q = some (q.map some) := by
  unfold ConveyorBelt.decimate
  by_cases h : q.length ≤ 1
  · rw [if_pos h]
  · rw [if_neg h]
    have hred : (ConveyorBelt.jround
        ((q.length : ℚ) * ConveyorBelt.cutoff 0 0 1)).toNat = 0 := by
      norm_num [ConveyorBelt.jround, ConveyorBelt.cutoff]
    simp only [hred]
    rw [ConveyorBelt.decLoop.eq_def]
    simp [ConveyorBelt.cleanup_map_some]

/-- Claim C5 (code bug at factor 1): `decimate(0)` is a no-op for every
queue and `decimate` on a queue of length ≤ 1 is a no-op, as claimed;
but `decimate(1)` — here on a 3-element queue — never terminates for
any amount of fuel, instead of returning with every slot but the
protected last one rewritten to a no-op: the scan still demands one
more removal after all unprotected slots are already marked. -/
theorem ConveyorBelt.decimate_edge_factors :
    (∀ fuel q, ConveyorBelt.decimate fuel 0 q = some (q.map some)) ∧
    (ConveyorBelt.decimate 5 1 [ConveyorBelt.Act.user 0] =
      some [some (ConveyorBelt.Act.user 0)]) ∧
    (∀ fuel, ConveyorBelt.decimate fuel 1
      [ConveyorBelt.Act.user 0, ConveyorBelt.Act.user 1,
        ConveyorBelt.Act.user 2] = none) := by
  refine ⟨ConveyorBelt.decimate_zero, by decide, ?_⟩
  intro fuel
  have hstuck : ∀ f, ConveyorBelt.decLoop f
      { queue := [none, none, some (ConveyorBelt.Act.user 2)], reduction := 1,
        increment := 1, i := 0, loop := 2 } = none := by
    intro f
    apply ConveyorBelt.decLoop_stuck
    · decide
    · intro j hj
      have hj01 : j = 0 ∨ j = 1 := by
        simp only [List.length_cons, List.length_nil] at hj
        omega
      rcases hj01 with h | h <;> subst h <;> rfl
    · decide
  have h2 : ∀ f, ConveyorBelt.decLoop f
      { queue := [some (ConveyorBelt.Act.user 0), none, some (ConveyorBelt.Act.user 2)],
        reduction := 2, increment := 1, i := 2, loop := 1 } = none := by
    apply ConveyorBelt.decLoop_none_step
    · decide
    · have e : ConveyorBelt.decStep
        { queue := [some (ConveyorBelt.Act.user 0), none, some (ConveyorBelt.Act.user 2)],
          reduction := 2, increment := 1, i := 2, loop := 1 } =
        { queue := [none, none, some (ConveyorBelt.Act.user 2)], reduction := 1,
          increment := 1, i := 0, loop := 2 } := by decide
      rw [e]; exact hstuck
  have h1 : ∀ f, ConveyorBelt.decLoop f
      { queue := [some (ConveyorBelt.Act.user 0), none, some (ConveyorBelt.Act.user 2)],
        reduction := 2, increment := 1, i := 1, loop := 1 } = none := by
    apply ConveyorBelt.decLoop_none_step
    · decide
    · have e : ConveyorBelt.decStep
        { queue := [some (ConveyorBelt.Act.user 0), none, some (ConveyorBelt.Act.user 2)],
          reduction := 2, increment := 1, i := 1, loop := 1 } =
        { queue := [some (ConveyorBelt.Act.user 0), none, some (ConveyorBelt.Act.user 2)],
          reduction := 2, increment := 1, i := 2, loop := 1 } := by decide
      rw [e]; exact h2
  have h0 : ∀ f, ConveyorBelt.decLoop f
      { queue := [some (ConveyorBelt.Act.user 0), some (ConveyorBelt.Act.user 1),
          some (ConveyorBelt.Act.user 2)],
        reduction := 3, increment := 1, i := 0, loop := 0 } = none := by
    apply ConveyorBelt.decLoop_none_step
    · decide
    · have e : ConveyorBelt.decStep
        { queue := [some (ConveyorBelt.Act.user 0), some (ConveyorBelt.Act.user 1),
            some (ConveyorBelt.Act.user 2)],
          reduction := 3, increment := 1, i := 0, loop := 0 } =
        { queue := [some (ConveyorBelt.Act.user 0), none, some (ConveyorBelt.Act.user 2)],
          reduction := 2, increment := 1, i := 1, loop := 1 } := by decide
      rw [e]; exact h1
  unfold ConveyorBelt.decimate
  norm_num [ConveyorBelt.cutoff, ConveyorBelt.jround]
  rw [show Int.toNat 3 = 3 from rfl]
  norm_num
  rw [h0 fuel]

/-- Claim C9 counterexample: immediately after `startThinking` — which
only installs the activity-event handlers — no state is recorded:
`running()` is `false` and `elapsed()` is `undefined`, contradicting
the claim that the state is already `Active` with a recorded
`lastResetTimestamp`. -/
theorem Thinking.start_not_active_counterexample :
    Thinking.running Thinking.startThinkingState = false ∧
    Thinking.elapsed 0 Thinking.startThinkingState = none ∧
    Thinking.startThinkingState.lastreset = none := by
  decide

/-- Claim C9 (amended): immediately after `start`, before any
qualifying activity event, the subject is not yet `Active`
(`running()` is `false`, `elapsed()` undefined, no timestamp recorded);
the state becomes `Active` with `lastResetTimestamp = now` at the first
qualifying activity event, after which `elapsed()` is defined. -/
theorem Thinking.active_only_after_first_activity (d t now : Nat) :
    Thinking.running Thinking.startThinkingState = false ∧
    Thinking.elapsed now Thinking.startThinkingState = none ∧
    Thinking.running (Thinking.activityEvent d t Thinking.startThinkingState) = true ∧
    (Thinking.activityEvent d t Thinking.startThinkingState).lastreset = some t ∧
    Thinking.elapsed now (Thinking.activityEvent d t Thinking.startThinkingState) =
      some (now - t) := by
  refine ⟨rfl, rfl, rfl, rfl, rfl⟩


/-- The scan starts with every slot live and in place. -/
theorem ConveyorBelt.DecInv_init (q : List ConveyorBelt.Act) :
    ConveyorBelt.DecInv q (q.map some) := by
  constructor
  · simp
  · intro j hj
    left
    rw [List.getElem?_map, List.getElem?_eq_getElem hj]
    rfl

/-- One scan iteration either leaves the queue unchanged or marks a
single in-range, non-final slot `null`. -/
theorem ConveyorBelt.decStep_queue_cases (s : ConveyorBelt.DecState)
    (h0 : 1 ≤ s.queue.length) :
    (ConveyorBelt.decStep s).queue = s.queue ∨
    ∃ i, i < s.queue.length ∧ i ≠ s.queue.length - 1 ∧
      (ConveyorBelt.decStep s).queue = s.queue.set i none := by
  unfold ConveyorBelt.decStep
  by_cases hi : (s.i + s.increment) % s.queue.length = s.queue.length - 1
  · left; simp [hi]
  · by_cases hm : ((s.queue[(s.i + s.increment) % s.queue.length]?).getD none).isSome = true
    · right
      refine ⟨(s.i + s.increment) % s.queue.length, Nat.mod_lt _ (by omega), hi, ?_⟩
      simp [hi, hm, List.getD_eq_getElem?_getD]
    · left; simp [hi, hm, List.getD_eq_getElem?_getD]

/-- One scan iteration preserves the slot-wise invariant. -/
theorem ConveyorBelt.decStep_DecInv (q0 : List ConveyorBelt.Act)
    (s : ConveyorBelt.DecState) (hlen : 1 ≤ q0.length)
    (h : ConveyorBelt.DecInv q0 s.queue) :
    ConveyorBelt.DecInv q0 (ConveyorBelt.decStep s).queue := by
  have h0 : 1 ≤ s.queue.length := by rw [h.1]; exact hlen
  rcases ConveyorBelt.decStep_queue_cases s h0 with hq | ⟨i, hilt, hine, hq⟩
  · rw [hq]; exact h
  · rw [hq]
    constructor
    · rw [List.length_set]; exact h.1
    · intro j hj
      by_cases hji : j = i
      · subst hji
        right
        refine ⟨by rw [← h.1]; exact hine, ?_⟩
        rw [List.getElem?_set_eq_of_lt _ hilt]
      · rcases h.2 j hj with hc | hc
        · left; rw [List.getElem?_set_ne (fun he => hji he.symm)]; exact hc
        · right; exact ⟨hc.1, by rw [List.getElem?_set_ne (fun he => hji he.symm)]; exact hc.2⟩

/-- A terminating scan preserves the slot-wise invariant. -/
theorem ConveyorBelt.decLoop_DecInv (q0 : List ConveyorBelt.Act) :
    ∀ (fuel : Nat) (s s' : ConveyorBelt.DecState), 1 ≤ q0.length →
      ConveyorBelt.DecInv q0 s.queue →
      ConveyorBelt.decLoop fuel s = some s' →
      ConveyorBelt.DecInv q0 s'.queue := by
  intro fuel
  induction fuel with
  | zero =>
    intro s s' hlen h hloop
    rw [ConveyorBelt.decLoop] at hloop
    by_cases hz : s.reduction = 0
    · rw [if_pos hz] at hloop
      cases hloop
      exact h
    · rw [if_neg hz] at hloop
      cases hloop
  | succ f ih =>
    intro s s' hlen h hloop
    rw [ConveyorBelt.decLoop] at hloop
    by_cases hz : s.reduction = 0
    · rw [if_pos hz] at hloop
      cases hloop
      exact h
    · rw [if_neg hz] at hloop
      exact ih _ _ hlen (ConveyorBelt.decStep_DecInv q0 s hlen h) hloop

/-- The clean-up pass turns an invariant-satisfying scan result into a
queue of the same length whose slots are the original action or a
no-op, the final slot being exactly the original. -/
theorem ConveyorBelt.cleanup_DecInv (q0 : List ConveyorBelt.Act)
    (qq : List (Option ConveyorBelt.Act)) (hlen : 1 ≤ q0.length)
    (h : ConveyorBelt.DecInv q0 qq) :
    (ConveyorBelt.cleanup qq).length = q0.length ∧
    (∀ j, j < q0.length →
      ((ConveyorBelt.cleanup qq)[j]? = some q0[j]? ∨
        (ConveyorBelt.cleanup qq)[j]? = some (some ConveyorBelt.Act.noop))) ∧
    (ConveyorBelt.cleanup qq)[q0.length - 1]? = some q0[q0.length - 1]? := by
  obtain ⟨hL, hp⟩ := h
  have hmaplen : (qq.dropLast.map ConveyorBelt.fixSlot).length = q0.length - 1 := by
    simp [hL]
  have hlast : ∀ j, j = q0.length - 1 →
      (ConveyorBelt.cleanup qq)[j]? = qq[q0.length - 1]? := by
    intro j hj
    subst hj
    unfold ConveyorBelt.cleanup
    rw [List.getElem?_append_right (by rw [hmaplen])]
    rw [hmaplen, Nat.sub_self, hL, List.getElem?_drop]
    congr 1
  have hlastval : qq[q0.length - 1]? = some q0[q0.length - 1]? := by
    rcases hp (q0.length - 1) (by omega) with hc | hc
    · exact hc
    · exact absurd rfl hc.1
  refine ⟨?_, ?_, ?_⟩
  · unfold ConveyorBelt.cleanup
    simp [hL]
  · intro j hj
    by_cases hjlast : j = q0.length - 1
    · subst hjlast
      left
      rw [hlast _ rfl, hlastval]
    · have hjlt : j < q0.length - 1 := by omega
      unfold ConveyorBelt.cleanup
      rw [List.getElem?_append]
      rw [if_pos (by rw [hmaplen]; exact hjlt)]
      rw [List.getElem?_map]
      rw [List.dropLast_eq_take, List.getElem?_take, hL, if_pos hjlt]
      rcases hp j hj with hc | hc
      · left
        rw [hc, List.getElem?_eq_getElem hj]
        rfl
      · right
        rw [hc.2]
        rfl
  · rw [hlast _ rfl, hlastval]

/-- Claim C6: whenever `decimate` returns, it preserves the queue's
length and the relative positions of all surviving actions — each slot
either still holds its original action or has been rewritten in place
to a no-op, never physically removed — and the last (most recently
added) slot is never marked or rewritten. -/
theorem ConveyorBelt.decimate_frame (fuel : Nat) (factor : ℚ)
    (q : List ConveyorBelt.Act) (r : List (Option ConveyorBelt.Act))
    (h : ConveyorBelt.decimate fuel factor q = some r) :
    r.length = q.length ∧
    (∀ j, j < q.length →
      (r[j]? = some q[j]? ∨ r[j]? = some (some ConveyorBelt.Act.noop))) ∧
    (1 ≤ q.length → r[q.length - 1]? = some q[q.length - 1]?) := by
  unfold ConveyorBelt.decimate at h
  by_cases hle : q.length ≤ 1
  · rw [if_pos hle] at h
    cases h
    refine ⟨by simp, ?_, ?_⟩
    · intro j hj
      left
      rw [List.getElem?_map, List.getElem?_eq_getElem hj]
      rfl
    · intro h1
      have hj : q.length - 1 < q.length := by omega
      rw [List.getElem?_map, List.getElem?_eq_getElem hj]
      rfl
  · rw [if_neg hle] at h
    simp only [Option.map_eq_some'] at h
    obtain ⟨s', hs', hr⟩ := h
    have hlen : 1 ≤ q.length := by omega
    have hinv := ConveyorBelt.decLoop_DecInv q fuel _ s' hlen
      (by simpa using ConveyorBelt.DecInv_init q) hs'
    have hres := ConveyorBelt.cleanup_DecInv q s'.queue hlen hinv
    rw [hr] at hres
    exact ⟨hres.1, hres.2.1, fun _ => hres.2.2⟩

/-- Witness for claim C6: a concrete terminating run,
`decimate(0.5)` on a 4-element queue. -/
theorem ConveyorBelt.decimate_frame_witness :
    ([some ConveyorBelt.Act.noop, some (ConveyorBelt.Act.user 1),
        some ConveyorBelt.Act.noop, some (ConveyorBelt.Act.user 3)] :
      List (Option ConveyorBelt.Act)).length =
      [ConveyorBelt.Act.user 0, ConveyorBelt.Act.user 1,
        ConveyorBelt.Act.user 2, ConveyorBelt.Act.user 3].length ∧
    (∀ j, j < [ConveyorBelt.Act.user 0, ConveyorBelt.Act.user 1,
        ConveyorBelt.Act.user 2, ConveyorBelt.Act.user 3].length →
      (([some ConveyorBelt.Act.noop, some (ConveyorBelt.Act.user 1),
          some ConveyorBelt.Act.noop, some (ConveyorBelt.Act.user 3)] :
        List (Option ConveyorBelt.Act))[j]? =
          some [ConveyorBelt.Act.user 0, ConveyorBelt.Act.user 1,
            ConveyorBelt.Act.user 2, ConveyorBelt.Act.user 3][j]? ∨
        ([some ConveyorBelt.Act.noop, some (ConveyorBelt.Act.user 1),
          some ConveyorBelt.Act.noop, some (ConveyorBelt.Act.user 3)] :
        List (Option ConveyorBelt.Act))[j]? =
          some (some ConveyorBelt.Act.noop))) ∧
    (1 ≤ [ConveyorBelt.Act.user 0, ConveyorBelt.Act.user 1,
        ConveyorBelt.Act.user 2, ConveyorBelt.Act.user 3].length →
      ([some ConveyorBelt.Act.noop, some (ConveyorBelt.Act.user 1),
          some ConveyorBelt.Act.noop, some (ConveyorBelt.Act.user 3)] :
        List (Option ConveyorBelt.Act))[[ConveyorBelt.Act.user 0,
          ConveyorBelt.Act.user 1, ConveyorBelt.Act.user 2,
          ConveyorBelt.Act.user 3].length - 1]? =
        some [ConveyorBelt.Act.user 0, ConveyorBelt.Act.user 1,
          ConveyorBelt.Act.user 2,
          ConveyorBelt.Act.user 3][[ConveyorBelt.Act.user 0,
          ConveyorBelt.Act.user 1, ConveyorBelt.Act.user 2,
          ConveyorBelt.Act.user 3].length - 1]?) :=
  ConveyorBelt.decimate_frame 10 (1 / 2)
    [ConveyorBelt.Act.user 0, ConveyorBelt.Act.user 1,
      ConveyorBelt.Act.user 2, ConveyorBelt.Act.user 3]
    [some ConveyorBelt.Act.noop, some (ConveyorBelt.Act.user 1),
      some ConveyorBelt.Act.noop, some (ConveyorBelt.Act.user 3)]
    (by
      unfold ConveyorBelt.decimate
      norm_num [ConveyorBelt.cutoff, ConveyorBelt.jround]
      rw [show Int.toNat 2 = 2 from rfl]
      norm_num
      decide)

/-- `add` preserves the timer-ownership invariant. -/
theorem ConveyorBelt.timerInv_addS (fn : ConveyorBelt.Act) (s : ConveyorBelt.Sys)
    (h : ConveyorBelt.timerInv s) : ConveyorBelt.timerInv (ConveyorBelt.addS fn s) := by
  obtain ⟨h1, h2⟩ := h
  unfold ConveyorBelt.timerInv ConveyorBelt.addS ConveyorBelt.add
  by_cases ha : s.belt.active
  · by_cases hsp : s.belt.speed = ConveyorBelt.Speed.immediate
    · have ht : s.belt.timerid = none := by
        by_contra hc
        exact (h2 hc).2 hsp
      rw [ht] at h1
      simp [ha, hsp, ht, ConveyorBelt.burn, h1]
    · by_cases ht : s.belt.timerid = none
      · rw [ht] at h1
        simp [ha, hsp, ht, ConveyorBelt.setInterval, h1]
      · simp [ha, hsp, ht, h1, h2]
  · have ht : s.belt.timerid = none := by
      by_contra hc
      exact ha (h2 hc).1
    rw [ht] at h1
    simp [ha, ht, h1]

/-- A `process` tick preserves the timer-ownership invariant. -/
theorem ConveyorBelt.timerInv_processS (s : ConveyorBelt.Sys)
    (h : ConveyorBelt.timerInv s) : ConveyorBelt.timerInv (ConveyorBelt.processS s) := by
  obtain ⟨h1, h2⟩ := h
  unfold ConveyorBelt.timerInv ConveyorBelt.processS ConveyorBelt.process
  by_cases hsp : s.belt.speed = ConveyorBelt.Speed.immediate
  · have ht : s.belt.timerid = none := by
      by_contra hc
      exact (h2 hc).2 hsp
    rw [ht] at h1
    cases hg : s.belt.queue.getLast? with
    | none => simp [hsp, hg, ht, h1]
    | some fn => simp [hsp, hg, ht, h1]
  · by_cases hq : s.belt.queue.length = 0
    · cases ht : s.belt.timerid with
      | none =>
        rw [ht] at h1
        simp [hsp, hq, ht, ConveyorBelt.clearInterval, h1]
      | some id =>
        rw [ht] at h1
        simp [hsp, hq, ht, ConveyorBelt.clearInterval, h1]
    · cases hg : s.belt.queue.getLast? with
      | none =>
        simp [hsp, hq, hg, h1]
        intro hc
        exact (h2 hc).1
      | some fn =>
        simp [hsp, hq, hg, h1]
        intro hc
        exact (h2 hc).1

/-- `stop` preserves the timer-ownership invariant. -/
theorem ConveyorBelt.timerInv_stopS (s : ConveyorBelt.Sys)
    (h : ConveyorBelt.timerInv s) : ConveyorBelt.timerInv (ConveyorBelt.stopS s) := by
  obtain ⟨h1, h2⟩ := h
  unfold ConveyorBelt.timerInv ConveyorBelt.stopS ConveyorBelt.stop
  cases ht : s.belt.timerid with
  | none => rw [ht] at h1; simp [ht, h1]
  | some id => rw [ht] at h1; simp [ht, ConveyorBelt.clearInterval, h1]

/-- `stop` in closed form: deactivate, drop the stored handle, cancel
it with the scheduler. -/
theorem ConveyorBelt.stop_eq (b : ConveyorBelt.Belt) (w : ConveyorBelt.Sched) :
    ConveyorBelt.stop b w =
      ({ b with active := false, timerid := none },
        ConveyorBelt.clearInterval w b.timerid) := by
  cases ht : b.timerid with
  | none => simp [ConveyorBelt.stop, ConveyorBelt.clearInterval, ht]
  | some id => simp [ConveyorBelt.stop, ConveyorBelt.clearInterval, ht]

/-- `start` preserves the timer-ownership invariant. -/
theorem ConveyorBelt.timerInv_startS (sp : Option ConveyorBelt.Speed)
    (s : ConveyorBelt.Sys) (h : ConveyorBelt.timerInv s) :
    ConveyorBelt.timerInv (ConveyorBelt.startS sp s) := by
  obtain ⟨h1, h2⟩ := h
  have hclear : (ConveyorBelt.clearInterval s.sched s.belt.timerid).live = [] := by
    cases ht : s.belt.timerid with
    | none => rw [ht] at h1; simp [ConveyorBelt.clearInterval, h1]
    | some id => rw [ht] at h1; simp [ConveyorBelt.clearInterval, h1]
  unfold ConveyorBelt.timerInv ConveyorBelt.startS ConveyorBelt.start
  rw [ConveyorBelt.stop_eq]
  cases sp with
  | none =>
    by_cases hsp : s.belt.speed = ConveyorBelt.Speed.immediate
    · simp [hsp, ConveyorBelt.burn, hclear]
    · simp [hsp, ConveyorBelt.setInterval, hclear]
  | some spv =>
    by_cases hsp : spv = ConveyorBelt.Speed.immediate
    · simp [hsp, ConveyorBelt.burn, hclear]
    · simp [hsp, ConveyorBelt.setInterval, hclear]

/-- `flush` preserves the timer-ownership invariant. -/
theorem ConveyorBelt.timerInv_flushS (amount : Option Nat) (s : ConveyorBelt.Sys)
    (h : ConveyorBelt.timerInv s) : ConveyorBelt.timerInv (ConveyorBelt.flushS amount s) := by
  obtain ⟨h1, h2⟩ := h
  unfold ConveyorBelt.timerInv ConveyorBelt.flushS ConveyorBelt.flush
  cases amount with
  | none => simpa [h1] using h2
  | some n => simpa [h1] using h2

/-- `burn` preserves the timer-ownership invariant. -/
theorem ConveyorBelt.timerInv_burnS (amount : Option Nat) (s : ConveyorBelt.Sys)
    (h : ConveyorBelt.timerInv s) : ConveyorBelt.timerInv (ConveyorBelt.burnS amount s) := by
  obtain ⟨h1, h2⟩ := h
  unfold ConveyorBelt.timerInv ConveyorBelt.burnS ConveyorBelt.burn
  simpa [h1] using h2

/-- A freshly constructed belt satisfies the timer-ownership
invariant. -/
theorem ConveyorBelt.timerInv_initS (sp : ConveyorBelt.Speed) :
    ConveyorBelt.timerInv (ConveyorBelt.initS sp) := by
  have he : ConveyorBelt.initS sp =
      ConveyorBelt.startS none
        { belt :=
            { queue := []
              speed := sp
              timerid := none
              active := false
              lastCheck := none }
          sched := ConveyorBelt.initSched } := rfl
  rw [he]
  apply ConveyorBelt.timerInv_startS
  constructor
  · simp [ConveyorBelt.initSched]
  · intro hc
    simp at hc

/-- Claim C3 (amended): in every reachable belt state the live
interval handles are exactly the stored `timerid` — so at most one
recurring timer handle exists at any time — and a stored handle implies
the belt is active with a duration speed.  (The claim's further
condition that the queue was non-empty at the last check does not hold;
see the counterexample.) -/
theorem ConveyorBelt.timer_handle_unique (s : ConveyorBelt.Sys)
    (h : ConveyorBelt.Reach s) :
    s.sched.live = s.belt.timerid.toList ∧
    s.sched.live.length ≤ 1 ∧
    (s.belt.timerid ≠ none →
      s.belt.active = true ∧ s.belt.speed ≠ ConveyorBelt.Speed.immediate) := by
  have hinv : ConveyorBelt.timerInv s := by
    induction h with
    | init sp => exact ConveyorBelt.timerInv_initS sp
    | add fn hr ih => exact ConveyorBelt.timerInv_addS _ _ ih
    | process hr ih => exact ConveyorBelt.timerInv_processS _ ih
    | start sp hr ih => exact ConveyorBelt.timerInv_startS _ _ ih
    | stop hr ih => exact ConveyorBelt.timerInv_stopS _ ih
    | flush amount hr ih => exact ConveyorBelt.timerInv_flushS _ _ ih
    | burn amount hr ih => exact ConveyorBelt.timerInv_burnS _ _ ih
  refine ⟨hinv.1, ?_, hinv.2⟩
  rw [hinv.1]
  cases s.belt.timerid <;> simp

/-- Witness for claim C3: the invariant instantiated at the reachable
state reached by constructing a duration-5 belt and adding one
action. -/
theorem ConveyorBelt.timer_handle_unique_witness :
    (ConveyorBelt.addS (ConveyorBelt.Act.user 1)
        (ConveyorBelt.initS (ConveyorBelt.Speed.duration 5))).sched.live =
      (ConveyorBelt.addS (ConveyorBelt.Act.user 1)
        (ConveyorBelt.initS (ConveyorBelt.Speed.duration 5))).belt.timerid.toList ∧
    (ConveyorBelt.addS (ConveyorBelt.Act.user 1)
        (ConveyorBelt.initS (ConveyorBelt.Speed.duration 5))).sched.live.length ≤ 1 ∧
    ((ConveyorBelt.addS (ConveyorBelt.Act.user 1)
        (ConveyorBelt.initS (ConveyorBelt.Speed.duration 5))).belt.timerid ≠ none →
      (ConveyorBelt.addS (ConveyorBelt.Act.user 1)
        (ConveyorBelt.initS (ConveyorBelt.Speed.duration 5))).belt.active = true ∧
      (ConveyorBelt.addS (ConveyorBelt.Act.user 1)
        (ConveyorBelt.initS (ConveyorBelt.Speed.duration 5))).belt.speed ≠
        ConveyorBelt.Speed.immediate) :=
  ConveyorBelt.timer_handle_unique _
    (ConveyorBelt.Reach.add _ (ConveyorBelt.Reach.init _))

/-- Claim C3 counterexample: after construct(duration 50); process;
add(f); process; process; start() the belt is reachable, holds a live
timer handle, yet the most recent queue-emptiness check saw an empty
queue (and the queue is indeed empty) — `start` re-created the timer
unconditionally without any check, refuting the conjunct that a timer
exists only while the queue was non-empty at the last check. -/
theorem ConveyorBelt.timer_lastCheck_counterexample :
    ConveyorBelt.Reach ConveyorBelt.checkTrace ∧
    ConveyorBelt.checkTrace.belt.timerid ≠ none ∧
    ConveyorBelt.checkTrace.belt.lastCheck = some false ∧
    ConveyorBelt.checkTrace.belt.queue = [] := by
  refine ⟨?_, by decide, by decide, by decide⟩
  exact ConveyorBelt.Reach.start none
    (ConveyorBelt.Reach.process
      (ConveyorBelt.Reach.process
        (ConveyorBelt.Reach.add _
          (ConveyorBelt.Reach.process (ConveyorBelt.Reach.init _)))))
